import Mathlib

/-!
Verification of the two notebooks of this repository.

The first notebook (`src/unnamed/part_000`) demonstrates low-rank SVD
approximation: it seeds numpy's RNG, draws a random square matrix `A`,
computes `U, S, Vt = np.linalg.svd(A)`, and forms the truncated products
`A_k = U[:, :k] @ np.diag(S[:k]) @ Vt[:k, :]`, recording the Frobenius-norm
reconstruction errors for `k = 1, ..., 10` in the 10x10 cell.

The second notebook (`src/R3/R3-Langchain_Tutorail.ipynb`) chains external
RAG components: a web loader, a recursive text splitter, an embedding
function, a Chroma vector store, and a RetrievalQA chain.

External library operations (numpy's RNG and SVD, the langchain
components) are not code of this repository; they are modelled abstractly:
either as universally quantified function parameters, or through their
documented postconditions as hypotheses (for `np.linalg.svd`:
`A = U @ diag(S) @ Vt` with `U`, `Vt` orthogonal).  Floating-point
arithmetic is idealised as real arithmetic.
-/

namespace LlamaClub

open Matrix BigOperators

/-! ## Model of the numpy RNG state

`np.random.seed(0)` resets numpy's global generator state to a value
depending only on the seed argument; `np.random.rand` is a deterministic
function of that state. -/

/-- Abstract state of numpy's global random generator. -/
structure RngState where
  state : ℕ
  deriving DecidableEq

/-- Embeds `np.random.seed(s)`: the resulting generator state depends only
on the seed `s`, not on the previous state. -/
def npSeed (s : ℕ) ( _g : RngState) : RngState := ⟨s⟩

/-! ## Frobenius norm (`np.linalg.norm(-, 'fro')`) -/

/-- Sum of the squares of all entries of a matrix. -/
def frobSq {m n : ℕ} (A : Matrix (Fin m) (Fin n) ℝ) : ℝ :=
  ∑ i, ∑ j, (A i j) ^ 2

/-- Embeds `np.linalg.norm(X, 'fro')`: the square root of the sum of
squared entries. -/
noncomputable def frobNorm {m n : ℕ} (A : Matrix (Fin m) (Fin n) ℝ) : ℝ :=
  Real.sqrt (frobSq A)

/-! ## The truncated SVD product `U[:, :k] @ np.diag(S[:k]) @ Vt[:k, :]` -/

/-- Embeds the column slice `U[:, :k]` (for `k ≤ n`). -/
def sliceCols {n k : ℕ} (h : k ≤ n) (U : Matrix (Fin n) (Fin n) ℝ) :
    Matrix (Fin n) (Fin k) ℝ :=
  Matrix.of fun i j => U i (Fin.castLE h j)

/-- Embeds the row slice `Vt[:k, :]` (for `k ≤ n`). -/
def sliceRows {n k : ℕ} (h : k ≤ n) (Vt : Matrix (Fin n) (Fin n) ℝ) :
    Matrix (Fin k) (Fin n) ℝ :=
  Matrix.of fun i j => Vt (Fin.castLE h i) j

/-- Embeds `np.diag(S[:k])` (for `k ≤ n`). -/
def diagSlice {n k : ℕ} (h : k ≤ n) (S : Fin n → ℝ) :
    Matrix (Fin k) (Fin k) ℝ :=
  Matrix.diagonal fun i => S (Fin.castLE h i)

/-- The truncated product `U[:, :k] @ np.diag(S[:k]) @ Vt[:k, :]`
exactly as sliced in the source (for `k ≤ n`). -/
def truncApproxSliced {n k : ℕ} (h : k ≤ n) (U : Matrix (Fin n) (Fin n) ℝ)
    (S : Fin n → ℝ) (Vt : Matrix (Fin n) (Fin n) ℝ) :
    Matrix (Fin n) (Fin n) ℝ :=
  sliceCols h U * diagSlice h S * sliceRows h Vt

/-- The same truncated product written with full-size factors: the
diagonal keeps the first `k` singular values and zeroes the rest.  For
`k ≤ n` this equals `truncApproxSliced` (lemma `truncApproxSliced_eq`
below); it is defined for every `k : ℕ`, matching numpy's clamping
slice semantics. -/
def truncApprox {n : ℕ} (U : Matrix (Fin n) (Fin n) ℝ) (S : Fin n → ℝ)
    (Vt : Matrix (Fin n) (Fin n) ℝ) (k : ℕ) : Matrix (Fin n) (Fin n) ℝ :=
  U * Matrix.diagonal (fun i : Fin n => if (i : ℕ) < k then S i else 0) * Vt

/-! ## The loops of the two demo cells

Each loop body builds `A_k` from `U`, `S`, `Vt` by slicing and matrix
products and appends one value to a list (`errors.append(error)` in the
10x10 cell; the printed output in the 5x5 cell); no other variable is
assigned. -/

/-- Variables in scope during the 10x10 cell's error loop. -/
structure SvdLoopState (n : ℕ) where
  A : Matrix (Fin n) (Fin n) ℝ
  U : Matrix (Fin n) (Fin n) ℝ
  S : Fin n → ℝ
  Vt : Matrix (Fin n) (Fin n) ℝ
  errors : List ℝ

/-- One iteration of the 10x10 cell's loop:
`S_k = np.diag(S[:k]); A_k = U[:, :k] @ S_k @ Vt[:k, :];`
`error = np.linalg.norm(A - A_k, 'fro'); errors.append(error)`. -/
noncomputable def svdLoopBody {n : ℕ} (st : SvdLoopState n) (k : ℕ) :
    SvdLoopState n :=
  { st with errors := st.errors ++ [frobNorm (st.A - truncApprox st.U st.S st.Vt k)] }

/-- Variables in scope during the 5x5 cell's print loop. -/
structure ApproxLoopState (n : ℕ) where
  A : Matrix (Fin n) (Fin n) ℝ
  U : Matrix (Fin n) (Fin n) ℝ
  S : Fin n → ℝ
  Vt : Matrix (Fin n) (Fin n) ℝ
  printed : List (Matrix (Fin n) (Fin n) ℝ)

/-- One iteration of the 5x5 cell's loop: build `A_k` and print it. -/
def approxLoopBody {n : ℕ} (st : ApproxLoopState n) (k : ℕ) :
    ApproxLoopState n :=
  { st with printed := st.printed ++ [truncApprox st.U st.S st.Vt k] }

/-- `ranks = list(range(1, 11))`. -/
def ranks : List ℕ := List.range' 1 10

/-- The `errors` list after the 10x10 cell's loop
`for k in ranks: ... errors.append(error)` starting from `errors = []`. -/
noncomputable def errorsList (A U : Matrix (Fin 10) (Fin 10) ℝ)
    (S : Fin 10 → ℝ) (Vt : Matrix (Fin 10) (Fin 10) ℝ) : List ℝ :=
  (ranks.foldl svdLoopBody ⟨A, U, S, Vt, []⟩).errors

/-! ## The full demo cells as functions of the incoming RNG state

`np.linalg.svd` is modelled as an arbitrary function returning the triple
`(U, S, Vt)`; `np.random.rand(n, n)` as an arbitrary function of the
generator state returning a matrix and the advanced state. -/

/-- The 5x5 cell: `np.random.seed(0); A = np.random.rand(5, 5);`
`U, S, Vt = np.linalg.svd(A); for k in [1, 3]: print A_k`. -/
def runApproxCell
    (randMatrix : RngState → Matrix (Fin 5) (Fin 5) ℝ × RngState)
    (svd : Matrix (Fin 5) (Fin 5) ℝ →
      Matrix (Fin 5) (Fin 5) ℝ × (Fin 5 → ℝ) × Matrix (Fin 5) (Fin 5) ℝ)
    (g : RngState) : ApproxLoopState 5 :=
  let g0 := npSeed 0 g
  let A := (randMatrix g0).1
  let t := svd A
  [1, 3].foldl approxLoopBody ⟨A, t.1, t.2.1, t.2.2, []⟩

/-- The 10x10 cell: `np.random.seed(0); A = np.random.rand(10, 10);`
`U, S, Vt = np.linalg.svd(A);` then the error loop over `ranks`. -/
noncomputable def runErrorCell
    (randMatrix : RngState → Matrix (Fin 10) (Fin 10) ℝ × RngState)
    (svd : Matrix (Fin 10) (Fin 10) ℝ →
      Matrix (Fin 10) (Fin 10) ℝ × (Fin 10 → ℝ) × Matrix (Fin 10) (Fin 10) ℝ)
    (g : RngState) : SvdLoopState 10 :=
  let g0 := npSeed 0 g
  let A := (randMatrix g0).1
  let t := svd A
  ranks.foldl svdLoopBody ⟨A, t.1, t.2.1, t.2.2, []⟩

/-! ## The RAG notebook

The langchain components are external; each is modelled as an abstract
function parameter.  Only the wiring between them is authored by the
repository, and that wiring is what is embedded here. -/

/-- The dictionary returned by a `RetrievalQA` chain built with
`return_source_documents=True`: the generated answer under `result` and
the retrieved documents under `source_documents`. -/
structure QAResult (Doc Ans : Type) where
  result : Ans
  source_documents : List Doc

/-- Embeds `db.as_retriever(search_kwargs={"k": k})`: a retriever that
returns the top `k` documents of the store's similarity search. -/
def chromaAsRetriever {Doc Store : Type} (search : Store → String → List Doc)
    (db : Store) (k : ℕ) : String → List Doc :=
  fun q => (search db q).take k

/-- Embeds `RetrievalQA.from_chain_type(llm=..., retriever=...,`
`return_source_documents=True)` applied to a query: the retrieved
documents are fed to the LLM and also returned under
`source_documents`. -/
def retrievalQA {Doc Ans : Type} (llm : String → List Doc → Ans)
    (retriever : String → List Doc) (query : String) : QAResult Doc Ans :=
  let docs := retriever query
  ⟨llm query docs, docs⟩

/-- The values bound by the RAG notebook's cells, in order. -/
structure RagTrace (Doc Store Ans : Type) where
  news_docs : List Doc
  texts_chunks : List Doc
  db : Store
  result : QAResult Doc Ans

/-- The RAG notebook's dataflow, cell by cell:
`news_docs = WebBaseLoader(url).load()`;
`texts_chunks = text_splitter.split_documents(news_docs)`;
`db = Chroma.from_documents(texts_chunks, embedding_func)`;
`qa_chain = RetrievalQA.from_chain_type(llm=llm, chain_type="stuff",`
`retriever=db.as_retriever(search_kwargs={"k": 2}),`
`return_source_documents=True, ...)`; `result = qa_chain({"query": query})`. -/
def ragTrace {Doc Emb Store Ans : Type}
    (webLoad : String → List Doc)
    (splitDocuments : List Doc → List Doc)
    (fromDocuments : List Doc → Emb → Store)
    (search : Store → String → List Doc)
    (llm : String → List Doc → Ans)
    (embedding_func : Emb) (url query : String) : RagTrace Doc Store Ans :=
  let news_docs := webLoad url
  let texts_chunks := splitDocuments news_docs
  let db := fromDocuments texts_chunks embedding_func
  let result := retrievalQA llm (chromaAsRetriever search db 2) query
  ⟨news_docs, texts_chunks, db, result⟩

/-! ## Fallible variants

Every notebook statement is a bare library call with no `try`/`except`
around it, so the faithful embedding of a cell whose library calls can
fail is plain monadic sequencing in `Except`. -/

/-- The RAG pipeline with fallible library calls and no error
handling. -/
def ragRunE {Doc Emb Store Ans E : Type}
    (webLoad : String → Except E (List Doc))
    (splitDocuments : List Doc → Except E (List Doc))
    (fromDocuments : List Doc → Emb → Except E Store)
    (search : Store → String → Except E (List Doc))
    (llm : String → List Doc → Except E Ans)
    (embedding_func : Emb) (url query : String) :
    Except E (QAResult Doc Ans) :=
  Except.bind (webLoad url) fun news_docs =>
  Except.bind (splitDocuments news_docs) fun texts_chunks =>
  Except.bind (fromDocuments texts_chunks embedding_func) fun db =>
  Except.bind (search db query) fun docs =>
  Except.bind (llm query (docs.take 2)) fun ans =>
  Except.ok ⟨ans, docs.take 2⟩

/-- The 10x10 SVD demo cell with fallible library calls and no error
handling. -/
noncomputable def svdCellE {E : Type}
    (randMatrix : RngState → Except E (Matrix (Fin 10) (Fin 10) ℝ × RngState))
    (svd : Matrix (Fin 10) (Fin 10) ℝ →
      Except E (Matrix (Fin 10) (Fin 10) ℝ × (Fin 10 → ℝ) ×
        Matrix (Fin 10) (Fin 10) ℝ))
    (g : RngState) : Except E (SvdLoopState 10) :=
  Except.bind (randMatrix (npSeed 0 g)) fun p =>
  Except.bind (svd p.1) fun t =>
  Except.ok (ranks.foldl svdLoopBody ⟨p.1, t.1, t.2.1, t.2.2, []⟩)

/-! ## The two notebooks side by side -/

/-- Running both notebooks: the SVD notebook's two demo cells and the
RAG notebook's pipeline.  No variable of one notebook appears in the
other, so the combined run is the pair of the two independent runs. -/
noncomputable def combinedNotebooks {Doc Emb Store Ans : Type}
    (rand5 : RngState → Matrix (Fin 5) (Fin 5) ℝ × RngState)
    (svd5 : Matrix (Fin 5) (Fin 5) ℝ →
      Matrix (Fin 5) (Fin 5) ℝ × (Fin 5 → ℝ) × Matrix (Fin 5) (Fin 5) ℝ)
    (rand10 : RngState → Matrix (Fin 10) (Fin 10) ℝ × RngState)
    (svd10 : Matrix (Fin 10) (Fin 10) ℝ →
      Matrix (Fin 10) (Fin 10) ℝ × (Fin 10 → ℝ) × Matrix (Fin 10) (Fin 10) ℝ)
    (g : RngState)
    (webLoad : String → List Doc)
    (splitDocuments : List Doc → List Doc)
    (fromDocuments : List Doc → Emb → Store)
    (search : Store → String → List Doc)
    (llm : String → List Doc → Ans)
    (embedding_func : Emb) (url query : String) :
    (ApproxLoopState 5 × SvdLoopState 10) × RagTrace Doc Store Ans :=
  ((runApproxCell rand5 svd5 g, runErrorCell rand10 svd10 g),
    ragTrace webLoad splitDocuments fromDocuments search llm
      embedding_func url query)

/-! ## Frobenius norm and truncation lemmas -/

lemma frobSq_eq_trace {m n : ℕ} (A : Matrix (Fin m) (Fin n) ℝ) :
    frobSq A = Matrix.trace (Aᵀ * A) := by
  unfold frobSq
  calc ∑ i, ∑ j, (A i j) ^ 2 = ∑ j, ∑ i, (A i j) ^ 2 := Finset.sum_comm
    _ = Matrix.trace (Aᵀ * A) := by
      simp [Matrix.trace, Matrix.mul_apply, pow_two]

lemma frobSq_conj {n : ℕ} (U M Vt : Matrix (Fin n) (Fin n) ℝ)
    (hU : Uᵀ * U = 1) (hV : Vt * Vtᵀ = 1) :
    frobSq (U * M * Vt) = frobSq M := by
  rw [frobSq_eq_trace, frobSq_eq_trace]
  have h1 : (U * M * Vt)ᵀ * (U * M * Vt) = Vtᵀ * (Mᵀ * M) * Vt := by
    rw [Matrix.transpose_mul, Matrix.transpose_mul]
    calc Vtᵀ * (Mᵀ * Uᵀ) * (U * M * Vt)
        = Vtᵀ * (Mᵀ * (Uᵀ * U * (M * Vt))) := by
          simp only [Matrix.mul_assoc]
      _ = Vtᵀ * (Mᵀ * (M * Vt)) := by rw [hU, Matrix.one_mul]
      _ = Vtᵀ * (Mᵀ * M) * Vt := by simp only [Matrix.mul_assoc]
  rw [h1, Matrix.trace_mul_comm, ← Matrix.mul_assoc, hV, Matrix.one_mul]

lemma sub_truncApprox {n : ℕ} (A U : Matrix (Fin n) (Fin n) ℝ) (S : Fin n → ℝ)
    (Vt : Matrix (Fin n) (Fin n) ℝ) (k : ℕ)
    (hA : A = U * Matrix.diagonal S * Vt) :
    A - truncApprox U S Vt k
      = U * Matrix.diagonal
          (fun i : Fin n => if (i : ℕ) < k then 0 else S i) * Vt := by
  subst hA
  unfold truncApprox
  have hfun : (fun i : Fin n => S i - (if (i : ℕ) < k then S i else 0))
      = fun i : Fin n => if (i : ℕ) < k then 0 else S i := by
    funext i
    by_cases h : (i : ℕ) < k <;> simp [h]
  rw [← Matrix.sub_mul, ← Matrix.mul_sub]
  rw [show Matrix.diagonal S
        - Matrix.diagonal (fun i : Fin n => if (i : ℕ) < k then S i else 0)
      = Matrix.diagonal (fun i : Fin n => if (i : ℕ) < k then 0 else S i) by
    rw [Matrix.diagonal_sub]
    exact congrArg Matrix.diagonal hfun]

lemma frobSq_diagonal {n : ℕ} (w : Fin n → ℝ) :
    frobSq (Matrix.diagonal w) = ∑ i, w i ^ 2 := by
  unfold frobSq
  apply Finset.sum_congr rfl
  intro i _
  rw [Finset.sum_eq_single i]
  · rw [Matrix.diagonal_apply_eq]
  · intro j _ hj
    rw [Matrix.diagonal_apply_ne w (Ne.symm hj)]
    exact zero_pow (by omega)
  · intro h
    exact absurd (Finset.mem_univ i) h

lemma residSq_mono {n : ℕ} (S : Fin n → ℝ) {j k : ℕ} (hjk : j ≤ k) :
    ∑ i : Fin n, (if (i : ℕ) < k then 0 else S i) ^ 2
      ≤ ∑ i : Fin n, (if (i : ℕ) < j then 0 else S i) ^ 2 := by
  apply Finset.sum_le_sum
  intro i _
  by_cases h : (i : ℕ) < k
  · simpa [h] using sq_nonneg (if (i : ℕ) < j then 0 else S i)
  · have hj : ¬ (i : ℕ) < j := fun hc => h (lt_of_lt_of_le hc hjk)
    simp [h, hj]

lemma err_eq_resid {n : ℕ} (A U : Matrix (Fin n) (Fin n) ℝ) (S : Fin n → ℝ)
    (Vt : Matrix (Fin n) (Fin n) ℝ) (k : ℕ)
    (hU : Uᵀ * U = 1) (hV : Vt * Vtᵀ = 1)
    (hA : A = U * Matrix.diagonal S * Vt) :
    frobNorm (A - truncApprox U S Vt k)
      = Real.sqrt (∑ i : Fin n, (if (i : ℕ) < k then 0 else S i) ^ 2) := by
  unfold frobNorm
  rw [sub_truncApprox A U S Vt k hA, frobSq_conj _ _ _ hU hV, frobSq_diagonal]

lemma truncApproxSliced_eq {n k : ℕ} (h : k ≤ n)
    (U : Matrix (Fin n) (Fin n) ℝ) (S : Fin n → ℝ)
    (Vt : Matrix (Fin n) (Fin n) ℝ) :
    truncApproxSliced h U S Vt = truncApprox U S Vt k := by
  have hset : Finset.univ.map (Fin.castLEEmb h)
      = Finset.univ.filter (fun l : Fin n => (l : ℕ) < k) := by
    ext l
    simp only [Finset.mem_map, Finset.mem_univ, true_and, Finset.mem_filter,
      Fin.castLEEmb, Function.Embedding.coeFn_mk]
    constructor
    · rintro ⟨x, rfl⟩
      exact x.isLt
    · intro hl
      exact ⟨⟨(l : ℕ), hl⟩, Fin.ext rfl⟩
  ext i j
  show (sliceCols h U * diagSlice h S * sliceRows h Vt) i j
    = (U * Matrix.diagonal
        (fun l : Fin n => if (l : ℕ) < k then S l else 0) * Vt) i j
  rw [Matrix.mul_apply, Matrix.mul_apply]
  calc ∑ l : Fin k, (sliceCols h U * diagSlice h S) i l * sliceRows h Vt l j
      = ∑ l : Fin k,
          U i (Fin.castLE h l) * S (Fin.castLE h l) * Vt (Fin.castLE h l) j := by
        apply Finset.sum_congr rfl
        intro l _
        simp only [diagSlice]
        rw [Matrix.mul_diagonal]
        rfl
    _ = ∑ l ∈ Finset.univ.map (Fin.castLEEmb h), U i l * S l * Vt l j := by
        rw [Finset.sum_map]
        rfl
    _ = ∑ l ∈ Finset.univ.filter (fun l : Fin n => (l : ℕ) < k),
          U i l * S l * Vt l j := by rw [hset]
    _ = ∑ l : Fin n,
          if (l : ℕ) < k then U i l * S l * Vt l j else 0 :=
        Finset.sum_filter _ _
    _ = ∑ l : Fin n,
          (U * Matrix.diagonal
            (fun l : Fin n => if (l : ℕ) < k then S l else 0)) i l * Vt l j := by
        apply Finset.sum_congr rfl
        intro l _
        rw [Matrix.mul_diagonal]
        by_cases hl : (l : ℕ) < k <;> simp [hl]

/-! ## Loop characterisation helpers -/

lemma foldl_svdLoopBody_fields {n : ℕ} (ks : List ℕ) (st : SvdLoopState n) :
    (ks.foldl svdLoopBody st).A = st.A ∧ (ks.foldl svdLoopBody st).U = st.U ∧
    (ks.foldl svdLoopBody st).S = st.S ∧ (ks.foldl svdLoopBody st).Vt = st.Vt := by
  induction ks generalizing st with
  | nil => exact ⟨rfl, rfl, rfl, rfl⟩
  | cons k ks ih => exact ih (svdLoopBody st k)

lemma foldl_approxLoopBody_fields {n : ℕ} (ks : List ℕ) (st : ApproxLoopState n) :
    (ks.foldl approxLoopBody st).A = st.A ∧ (ks.foldl approxLoopBody st).U = st.U ∧
    (ks.foldl approxLoopBody st).S = st.S ∧ (ks.foldl approxLoopBody st).Vt = st.Vt := by
  induction ks generalizing st with
  | nil => exact ⟨rfl, rfl, rfl, rfl⟩
  | cons k ks ih => exact ih (approxLoopBody st k)

lemma foldl_svdLoopBody_errors {n : ℕ} (ks : List ℕ) (st : SvdLoopState n) :
    (ks.foldl svdLoopBody st).errors
      = st.errors ++ ks.map fun k => frobNorm (st.A - truncApprox st.U st.S st.Vt k) := by
  induction ks generalizing st with
  | nil => simp
  | cons k ks ih =>
    rw [List.foldl_cons, ih]
    simp [svdLoopBody]

lemma errorsList_eq_map (A U : Matrix (Fin 10) (Fin 10) ℝ)
    (S : Fin 10 → ℝ) (Vt : Matrix (Fin 10) (Fin 10) ℝ) :
    errorsList A U S Vt
      = ranks.map fun k => frobNorm (A - truncApprox U S Vt k) := by
  unfold errorsList
  rw [foldl_svdLoopBody_errors]
  simp

lemma errorsList_getD (A U : Matrix (Fin 10) (Fin 10) ℝ) (S : Fin 10 → ℝ)
    (Vt : Matrix (Fin 10) (Fin 10) ℝ) (k : ℕ) (h1 : 1 ≤ k) (h2 : k ≤ 10) :
    (errorsList A U S Vt).getD (k - 1) 0
      = frobNorm (A - truncApprox U S Vt k) := by
  rw [errorsList_eq_map]
  have hlen : k - 1
      < ((ranks.map fun k2 => frobNorm (A - truncApprox U S Vt k2)).length) := by
    simp only [List.length_map, ranks, List.length_range']
    omega
  rw [List.getD_eq_getElem _ _ hlen, List.getElem_map]
  show frobNorm (A - truncApprox U S Vt ((List.range' 1 10)[k-1])) = _
  have hk : 1 + 1 * (k - 1) = k := by omega
  rw [List.getElem_range', hk]

/-! ## Claims about the SVD demo -/

/-- C1: in the 10x10 demo, under the SVD postconditions
(`A = U @ diag(S) @ Vt` with `U`, `Vt` orthogonal), the Frobenius-norm
reconstruction error is non-increasing in the truncation rank: for
`1 ≤ j ≤ k ≤ 10` the error recorded for rank `k` is at most the error
recorded for rank `j`. -/
theorem errors_antitone_in_rank (A U : Matrix (Fin 10) (Fin 10) ℝ)
    (S : Fin 10 → ℝ) (Vt : Matrix (Fin 10) (Fin 10) ℝ)
    (hU : Uᵀ * U = 1) (hV : Vt * Vtᵀ = 1)
    (hA : A = U * Matrix.diagonal S * Vt)
    (j k : ℕ) (hj : 1 ≤ j) (hjk : j ≤ k) (hk : k ≤ 10) :
    (errorsList A U S Vt).getD (k - 1) 0
      ≤ (errorsList A U S Vt).getD (j - 1) 0 := by
  rw [errorsList_getD A U S Vt k (hj.trans hjk) hk,
    errorsList_getD A U S Vt j hj (hjk.trans hk),
    err_eq_resid A U S Vt k hU hV hA, err_eq_resid A U S Vt j hU hV hA]
  exact Real.sqrt_le_sqrt (residSq_mono S hjk)

/-- Witness for C1: the identity matrix with its trivial SVD, ranks
`j = 1`, `k = 2`. -/
theorem errors_antitone_in_rank_witness :
    ((1 : Matrix (Fin 10) (Fin 10) ℝ)ᵀ * 1 = 1) ∧
    ((1 : Matrix (Fin 10) (Fin 10) ℝ) * (1 : Matrix (Fin 10) (Fin 10) ℝ)ᵀ
      = 1) ∧
    ((1 : Matrix (Fin 10) (Fin 10) ℝ)
      = 1 * Matrix.diagonal (fun _ : Fin 10 => (1 : ℝ)) * 1) ∧
    (errorsList 1 1 (fun _ => (1 : ℝ)) 1).getD (2 - 1) 0
      ≤ (errorsList 1 1 (fun _ => (1 : ℝ)) 1).getD (1 - 1) 0 :=
  ⟨by simp, by simp, by simp,
    errors_antitone_in_rank 1 1 (fun _ => (1 : ℝ)) 1 (by simp) (by simp)
      (by simp) 1 2 (by omega) (by omega) (by omega)⟩

/-- C2: under the SVD postconditions, the rank-10 truncation of the
10x10 matrix reconstructs `A` exactly, so the last recorded error is
zero; more generally, whenever the singular values vanish from index `r`
on (`k = rank A`), the error recorded for rank `r` is zero. -/
theorem full_rank_error_zero (A U : Matrix (Fin 10) (Fin 10) ℝ)
    (S : Fin 10 → ℝ) (Vt : Matrix (Fin 10) (Fin 10) ℝ)
    (hU : Uᵀ * U = 1) (hV : Vt * Vtᵀ = 1)
    (hA : A = U * Matrix.diagonal S * Vt) :
    truncApprox U S Vt 10 = A ∧
    (errorsList A U S Vt).getD (10 - 1) 0 = 0 ∧
    ∀ (r : ℕ), 1 ≤ r → r ≤ 10 → (∀ i : Fin 10, r ≤ (i : ℕ) → S i = 0) →
      (errorsList A U S Vt).getD (r - 1) 0 = 0 := by
  have h10 : truncApprox U S Vt 10 = A := by
    unfold truncApprox
    rw [hA]
    have hf : (fun i : Fin 10 => if (i : ℕ) < 10 then S i else 0) = S := by
      funext i
      simp [i.isLt]
    rw [hf]
  refine ⟨h10, ?_, ?_⟩
  · rw [errorsList_getD A U S Vt 10 (by omega) (by omega), h10]
    simp [frobNorm, frobSq]
  · intro r hr1 hr hS
    rw [errorsList_getD A U S Vt r hr1 hr, err_eq_resid A U S Vt r hU hV hA]
    have hz : ∀ i : Fin 10, (if (i : ℕ) < r then 0 else S i) ^ 2 = 0 := by
      intro i
      by_cases hi : (i : ℕ) < r
      · simp [hi]
      · simp [hi, hS i (le_of_not_lt hi)]
    rw [Finset.sum_congr rfl fun i _ => hz i]
    simp

/-- Witness for C2: the identity matrix with its trivial SVD; the last
entry of the errors list is zero. -/
theorem full_rank_error_zero_witness :
    ((1 : Matrix (Fin 10) (Fin 10) ℝ)ᵀ * 1 = 1) ∧
    ((1 : Matrix (Fin 10) (Fin 10) ℝ) * (1 : Matrix (Fin 10) (Fin 10) ℝ)ᵀ
      = 1) ∧
    ((1 : Matrix (Fin 10) (Fin 10) ℝ)
      = 1 * Matrix.diagonal (fun _ : Fin 10 => (1 : ℝ)) * 1) ∧
    (errorsList 1 1 (fun _ => (1 : ℝ)) 1).getD (10 - 1) 0 = 0 :=
  ⟨by simp, by simp, by simp,
    (full_rank_error_zero 1 1 (fun _ => (1 : ℝ)) 1 (by simp) (by simp)
      (by simp)).2.1⟩

/-- C3: the 10x10 cell's loop runs over `ranks = [1, ..., 10]` in
increasing order, the `errors` list ends up with exactly 10 entries, and
`errors[k-1]` is the Frobenius norm of
`A - U[:, :k] @ np.diag(S[:k]) @ Vt[:k, :]`. -/
theorem errors_loop_structure (A U : Matrix (Fin 10) (Fin 10) ℝ)
    (S : Fin 10 → ℝ) (Vt : Matrix (Fin 10) (Fin 10) ℝ) :
    ranks = [1, 2, 3, 4, 5, 6, 7, 8, 9, 10] ∧
    (errorsList A U S Vt).length = 10 ∧
    ∀ (k : ℕ) (h1 : 1 ≤ k) (h2 : k ≤ 10),
      (errorsList A U S Vt).getD (k - 1) 0
        = frobNorm (A - truncApproxSliced h2 U S Vt) := by
  refine ⟨by decide, ?_, fun k h1 h2 => ?_⟩
  · rw [errorsList_eq_map]
    simp only [List.length_map, ranks, List.length_range']
  · rw [truncApproxSliced_eq h2 U S Vt]
    exact errorsList_getD A U S Vt k h1 h2

/-- Witness for C3 at `k = 3` and the identity matrices. -/
theorem errors_loop_structure_witness :
    (1 : ℕ) ≤ 3 ∧ (3 : ℕ) ≤ 10 ∧
    (errorsList 1 1 (fun _ => (1 : ℝ)) 1).getD (3 - 1) 0
      = frobNorm ((1 : Matrix (Fin 10) (Fin 10) ℝ)
          - truncApproxSliced (by decide : (3 : ℕ) ≤ 10) 1
              (fun _ => (1 : ℝ)) 1) :=
  ⟨by decide, by decide,
    (errors_loop_structure 1 1 (fun _ => (1 : ℝ)) 1).2.2 3 (by decide)
      (by decide)⟩

/-- C4: the truncated product `U[:, :k] @ np.diag(S[:k]) @ Vt[:k, :]`
built by both demo cells is a matrix of rank at most `k`. -/
theorem truncated_approx_rank_le {n k : ℕ} (h : k ≤ n)
    (U : Matrix (Fin n) (Fin n) ℝ) (S : Fin n → ℝ)
    (Vt : Matrix (Fin n) (Fin n) ℝ) :
    (truncApproxSliced h U S Vt).rank ≤ k ∧
    (truncApprox U S Vt k).rank ≤ k := by
  have hr : (truncApproxSliced h U S Vt).rank ≤ k := by
    unfold truncApproxSliced
    calc (sliceCols h U * diagSlice h S * sliceRows h Vt).rank
        ≤ (sliceCols h U * diagSlice h S).rank := Matrix.rank_mul_le_left _ _
      _ ≤ Fintype.card (Fin k) := Matrix.rank_le_card_width _
      _ = k := Fintype.card_fin k
  refine ⟨hr, ?_⟩
  rw [← truncApproxSliced_eq h U S Vt]
  exact hr

/-- Witness for C4: the rank-3 truncation of a 5x5 identity SVD has rank
at most 3. -/
theorem truncated_approx_rank_le_witness :
    (3 : ℕ) ≤ 5 ∧
    ((truncApproxSliced (by decide : (3 : ℕ) ≤ 5)
        (1 : Matrix (Fin 5) (Fin 5) ℝ) (fun _ => (1 : ℝ)) 1).rank ≤ 3 ∧
      (truncApprox (1 : Matrix (Fin 5) (Fin 5) ℝ) (fun _ => (1 : ℝ)) 1
        3).rank ≤ 3) :=
  ⟨by decide,
    truncated_approx_rank_le (by decide) 1 (fun _ => (1 : ℝ)) 1⟩

/-! ## Claims about the notebooks' structure and dataflow -/

/-- C5: both demo cells start with `np.random.seed(0)`, so the matrix
`A`, the SVD factors, the printed approximations `A_k` and the recorded
errors are identical across any two runs of a cell, whatever generator
state each run starts from. -/
theorem seeded_cells_deterministic
    (rand5 : RngState → Matrix (Fin 5) (Fin 5) ℝ × RngState)
    (svd5 : Matrix (Fin 5) (Fin 5) ℝ →
      Matrix (Fin 5) (Fin 5) ℝ × (Fin 5 → ℝ) × Matrix (Fin 5) (Fin 5) ℝ)
    (rand10 : RngState → Matrix (Fin 10) (Fin 10) ℝ × RngState)
    (svd10 : Matrix (Fin 10) (Fin 10) ℝ →
      Matrix (Fin 10) (Fin 10) ℝ × (Fin 10 → ℝ) × Matrix (Fin 10) (Fin 10) ℝ)
    (g g2 : RngState) :
    runApproxCell rand5 svd5 g = runApproxCell rand5 svd5 g2 ∧
    runErrorCell rand10 svd10 g = runErrorCell rand10 svd10 g2 :=
  ⟨rfl, rfl⟩

/-- C6: each stage of the RAG notebook consumes exactly the previous
stage's output: the loaded documents feed the splitter, the chunks and
the embedding function populate the store, and the QA chain answers the
query through a retriever derived from that same store. -/
theorem rag_pipeline_dataflow {Doc Emb Store Ans : Type}
    (webLoad : String → List Doc)
    (splitDocuments : List Doc → List Doc)
    (fromDocuments : List Doc → Emb → Store)
    (search : Store → String → List Doc)
    (llm : String → List Doc → Ans)
    (embedding_func : Emb) (url query : String) :
    (ragTrace webLoad splitDocuments fromDocuments search llm
        embedding_func url query).news_docs = webLoad url ∧
    (ragTrace webLoad splitDocuments fromDocuments search llm
        embedding_func url query).texts_chunks
      = splitDocuments (ragTrace webLoad splitDocuments fromDocuments search
          llm embedding_func url query).news_docs ∧
    (ragTrace webLoad splitDocuments fromDocuments search llm
        embedding_func url query).db
      = fromDocuments (ragTrace webLoad splitDocuments fromDocuments search
          llm embedding_func url query).texts_chunks embedding_func ∧
    (ragTrace webLoad splitDocuments fromDocuments search llm
        embedding_func url query).result
      = retrievalQA llm
          (chromaAsRetriever search
            (ragTrace webLoad splitDocuments fromDocuments search llm
              embedding_func url query).db 2) query :=
  ⟨rfl, rfl, rfl, rfl⟩

/-- C8: the two notebooks share no state: the SVD notebook's outputs are
unchanged under any variation of the RAG notebook's components, and the
RAG notebook's outputs are unchanged under any variation of the SVD
notebook's components. -/
theorem notebooks_noninterference {Doc Emb Store Ans : Type}
    (rand5 rand5b : RngState → Matrix (Fin 5) (Fin 5) ℝ × RngState)
    (svd5 svd5b : Matrix (Fin 5) (Fin 5) ℝ →
      Matrix (Fin 5) (Fin 5) ℝ × (Fin 5 → ℝ) × Matrix (Fin 5) (Fin 5) ℝ)
    (rand10 rand10b : RngState → Matrix (Fin 10) (Fin 10) ℝ × RngState)
    (svd10 svd10b : Matrix (Fin 10) (Fin 10) ℝ →
      Matrix (Fin 10) (Fin 10) ℝ × (Fin 10 → ℝ) × Matrix (Fin 10) (Fin 10) ℝ)
    (g gb : RngState)
    (webLoad webLoadb : String → List Doc)
    (splitDocuments splitDocumentsb : List Doc → List Doc)
    (fromDocuments fromDocumentsb : List Doc → Emb → Store)
    (search searchb : Store → String → List Doc)
    (llm llmb : String → List Doc → Ans)
    (embedding_func embedding_funcb : Emb) (url urlb query queryb : String) :
    (combinedNotebooks rand5 svd5 rand10 svd10 g webLoad splitDocuments
        fromDocuments search llm embedding_func url query).1
      = (combinedNotebooks rand5 svd5 rand10 svd10 g webLoadb splitDocumentsb
          fromDocumentsb searchb llmb embedding_funcb urlb queryb).1 ∧
    (combinedNotebooks rand5 svd5 rand10 svd10 g webLoad splitDocuments
        fromDocuments search llm embedding_func url query).2
      = (combinedNotebooks rand5b svd5b rand10b svd10b gb webLoad
          splitDocuments fromDocuments search llm embedding_func
          url query).2 :=
  ⟨rfl, rfl⟩

/-- C9: the approximation loops are non-destructive: after either demo
cell's loop, the variables `A`, `U`, `S` and `Vt` are exactly their
values from just after the SVD call. -/
theorem loops_preserve_svd_factors {n : ℕ} (ks ks2 : List ℕ)
    (st : SvdLoopState n) (st2 : ApproxLoopState n) :
    ((ks.foldl svdLoopBody st).A = st.A ∧ (ks.foldl svdLoopBody st).U = st.U ∧
      (ks.foldl svdLoopBody st).S = st.S ∧
      (ks.foldl svdLoopBody st).Vt = st.Vt) ∧
    ((ks2.foldl approxLoopBody st2).A = st2.A ∧
      (ks2.foldl approxLoopBody st2).U = st2.U ∧
      (ks2.foldl approxLoopBody st2).S = st2.S ∧
      (ks2.foldl approxLoopBody st2).Vt = st2.Vt) :=
  ⟨foldl_svdLoopBody_fields ks st, foldl_approxLoopBody_fields ks2 st2⟩

/-- C10: the QA chain retrieves at most 2 documents (`search_kwargs`
`k=2`), answers from exactly those documents, and returns them under
`source_documents`, so the printed source list has at most 2 entries. -/
theorem qa_chain_two_source_documents {Doc Store Ans : Type}
    (search : Store → String → List Doc) (db : Store)
    (llm : String → List Doc → Ans) (query : String) :
    (retrievalQA llm (chromaAsRetriever search db 2) query).source_documents
      = (search db query).take 2 ∧
    (retrievalQA llm (chromaAsRetriever search db 2) query).result
      = llm query ((search db query).take 2) ∧
    (retrievalQA llm (chromaAsRetriever search db 2)
      query).source_documents.length ≤ 2 := by
  refine ⟨rfl, rfl, ?_⟩
  show ((search db query).take 2).length ≤ 2
  rw [List.length_take]
  exact min_le_left _ _

lemma except_bind_error_eq {α β E : Type} (e : E) (x : Except E α)
    (f : α → Except E β) (hx : x = Except.error e) :
    Except.bind x f = Except.error e := by
  rw [hx]; rfl

lemma except_bind_ok_eq {α β E : Type} (x : Except E α) (a : α)
    (f : α → Except E β) (hx : x = Except.ok a) :
    Except.bind x f = f a := by
  rw [hx]; rfl

/-- C7: neither notebook contains any authored error handling: whenever a
library call fails, the error propagates unchanged out of the cell, with
no recovery path. -/
theorem no_authored_error_handling {Doc Emb Store Ans E : Type}
    (webLoad : String → Except E (List Doc))
    (splitDocuments : List Doc → Except E (List Doc))
    (fromDocuments : List Doc → Emb → Except E Store)
    (search : Store → String → Except E (List Doc))
    (llm : String → List Doc → Except E Ans)
    (embedding_func : Emb) (url query : String)
    (rand10 : RngState → Except E (Matrix (Fin 10) (Fin 10) ℝ × RngState))
    (svd10 : Matrix (Fin 10) (Fin 10) ℝ →
      Except E (Matrix (Fin 10) (Fin 10) ℝ × (Fin 10 → ℝ) ×
        Matrix (Fin 10) (Fin 10) ℝ))
    (g : RngState) :
    (∀ e, webLoad url = Except.error e →
      ragRunE webLoad splitDocuments fromDocuments search llm embedding_func
        url query = Except.error e) ∧
    (∀ e ds, webLoad url = Except.ok ds →
      splitDocuments ds = Except.error e →
      ragRunE webLoad splitDocuments fromDocuments search llm embedding_func
        url query = Except.error e) ∧
    (∀ e ds cs, webLoad url = Except.ok ds →
      splitDocuments ds = Except.ok cs →
      fromDocuments cs embedding_func = Except.error e →
      ragRunE webLoad splitDocuments fromDocuments search llm embedding_func
        url query = Except.error e) ∧
    (∀ e ds cs db, webLoad url = Except.ok ds →
      splitDocuments ds = Except.ok cs →
      fromDocuments cs embedding_func = Except.ok db →
      search db query = Except.error e →
      ragRunE webLoad splitDocuments fromDocuments search llm embedding_func
        url query = Except.error e) ∧
    (∀ e ds cs db docs, webLoad url = Except.ok ds →
      splitDocuments ds = Except.ok cs →
      fromDocuments cs embedding_func = Except.ok db →
      search db query = Except.ok docs →
      llm query (docs.take 2) = Except.error e →
      ragRunE webLoad splitDocuments fromDocuments search llm embedding_func
        url query = Except.error e) ∧
    (∀ e, rand10 (npSeed 0 g) = Except.error e →
      svdCellE rand10 svd10 g = Except.error e) ∧
    (∀ e p, rand10 (npSeed 0 g) = Except.ok p →
      svd10 p.1 = Except.error e →
      svdCellE rand10 svd10 g = Except.error e) := by
  refine ⟨?_, ?_, ?_, ?_, ?_, ?_, ?_⟩
  · intro e h1
    unfold ragRunE
    exact except_bind_error_eq e _ _ h1
  · intro e ds h1 h2
    unfold ragRunE
    rw [except_bind_ok_eq _ _ _ h1]
    exact except_bind_error_eq e _ _ h2
  · intro e ds cs h1 h2 h3
    unfold ragRunE
    rw [except_bind_ok_eq _ _ _ h1, except_bind_ok_eq _ _ _ h2]
    exact except_bind_error_eq e _ _ h3
  · intro e ds cs db h1 h2 h3 h4
    unfold ragRunE
    rw [except_bind_ok_eq _ _ _ h1, except_bind_ok_eq _ _ _ h2,
      except_bind_ok_eq _ _ _ h3]
    exact except_bind_error_eq e _ _ h4
  · intro e ds cs db docs h1 h2 h3 h4 h5
    unfold ragRunE
    rw [except_bind_ok_eq _ _ _ h1, except_bind_ok_eq _ _ _ h2,
      except_bind_ok_eq _ _ _ h3, except_bind_ok_eq _ _ _ h4]
    exact except_bind_error_eq e _ _ h5
  · intro e h1
    unfold svdCellE
    exact except_bind_error_eq e _ _ h1
  · intro e p h1 h2
    unfold svdCellE
    rw [except_bind_ok_eq _ _ _ h1]
    exact except_bind_error_eq e _ _ h2

/-- Witness for C7: a failing web load with error code 7 propagates
unchanged out of the RAG pipeline. -/
theorem no_authored_error_handling_witness :
    ragRunE (fun _ : String => (Except.error 7 : Except ℕ (List ℕ)))
      (fun ds => Except.ok ds)
      (fun ds (_e : Unit) => (Except.ok ds : Except ℕ (List ℕ)))
      (fun s _q => Except.ok s)
      (fun _q _ds => (Except.ok 0 : Except ℕ ℕ))
      () "u" "q" = Except.error 7 :=
  (no_authored_error_handling
    (fun _ : String => (Except.error 7 : Except ℕ (List ℕ)))
    (fun ds => Except.ok ds)
    (fun ds (_e : Unit) => (Except.ok ds : Except ℕ (List ℕ)))
    (fun s _q => Except.ok s)
    (fun _q _ds => (Except.ok 0 : Except ℕ ℕ))
    () "u" "q"
    (fun g2 => Except.ok ((0 : Matrix (Fin 10) (Fin 10) ℝ), g2))
    (fun A => Except.ok (A, (fun _ => 0), A))
    ⟨0⟩).1 7 rfl

end LlamaClub
